import Mathlib

/-!
Shallow embedding of the ledger engine of the bolt-tracker repository
(`src/App.tsx`): the trade transition function `applyTradeMath` and the
full-history replay `recomputeAll`, together with theorems about the
claims of the specification. Money amounts are modelled as exact
rationals; the source's decimal literals `0.3` and `0.7` become
`3/10` and `7/10`.
-/

deriving instance DecidableEq for Except

/-- Outcome of a trade: the source's string union `'win' | 'loss'`. -/
inductive Outcome where
  | win : Outcome
  | loss : Outcome
deriving DecidableEq, Repr

/-- The record returned by `applyTradeMath` on success
(`{ ok: true, newRoll, newBank, totalWealth, profitLoss, amountBanked }`). -/
structure TradeResult where
  newRoll : ℚ
  newBank : ℚ
  totalWealth : ℚ
  profitLoss : ℚ
  amountBanked : ℚ
deriving DecidableEq, Repr

/-- The transition function `applyTradeMath` of `src/App.tsx` (lines 163-219).
The source computes `isSeedingTrade = prevRoll <= 0`, rejects on
`stake <= 0`, then `multiplier <= 1`, then on the capital-source
over-stake check (Bank when seeding, Roll Pot otherwise), and on success
splits a win's total return `stake * multiplier` as 30% to Bank and 70%
to Roll Pot, drawing the stake from the capital source. The `ok:false`
branch is `Except.error reason`, the `ok:true` branch `Except.ok`. -/
def applyTradeMath (prevRoll prevBank stake multiplier : ℚ) (outcome : Outcome) :
    Except String TradeResult :=
  if stake ≤ 0 then Except.error "Stake must be > 0"
  else if multiplier ≤ 1 then Except.error "Multiplier must be > 1"
  else if prevRoll ≤ 0 ∧ stake > prevBank then
    Except.error "Stake cannot exceed Bank balance"
  else if ¬ prevRoll ≤ 0 ∧ stake > prevRoll then
    Except.error "Stake cannot exceed Roll Pot balance"
  else
    let totalReturn : ℚ := match outcome with
      | Outcome.win => stake * multiplier
      | Outcome.loss => 0
    let bankAllocation : ℚ := match outcome with
      | Outcome.win => totalReturn * (3 / 10)
      | Outcome.loss => 0
    let rollAllocation : ℚ := match outcome with
      | Outcome.win => totalReturn * (7 / 10)
      | Outcome.loss => 0
    let newRoll : ℚ := match outcome with
      | Outcome.win =>
        if prevRoll ≤ 0 then prevRoll + rollAllocation
        else prevRoll - stake + rollAllocation
      | Outcome.loss =>
        if prevRoll ≤ 0 then prevRoll else prevRoll - stake
    let newBank : ℚ := match outcome with
      | Outcome.win =>
        if prevRoll ≤ 0 then prevBank - stake + bankAllocation
        else prevBank + bankAllocation
      | Outcome.loss =>
        if prevRoll ≤ 0 then prevBank - stake else prevBank
    let profitLoss : ℚ := match outcome with
      | Outcome.win => totalReturn - stake
      | Outcome.loss => -stake
    Except.ok
      { newRoll := newRoll
        newBank := newBank
        totalWealth := newRoll + newBank
        profitLoss := profitLoss
        amountBanked := bankAllocation }

/-- A trade row as stored (`src/types/trade.ts`); the identifier and the
text fields are carried through untouched by the recompute. -/
structure Trade where
  id : Nat
  created_at : String
  trade_date : String
  description : String
  multiplier : ℚ
  stake : ℚ
  outcome : Outcome
  profit_loss : ℚ
  amount_banked : ℚ
  roll_pot_after : ℚ
  bank_total_after : ℚ
  total_wealth_after : ℚ
  trade_number : Nat
deriving DecidableEq, Repr

/-- `STARTING_ROLL_POT` of `src/App.tsx`. -/
def STARTING_ROLL_POT : ℚ := 0

/-- `STARTING_BANK_TOTAL` of `src/App.tsx`. -/
def STARTING_BANK_TOTAL : ℚ := 3000

/-- The loop body of `recomputeAll` (`src/App.tsx` lines 343-376),
threading the running `(roll, bank)` balances and the 0-based loop
index `i`. On a transition rejection it returns the source's message
`Trade #${i+1}: ${reason}`; on success it overwrites the five derived
fields and `trade_number := i + 1` and recurses on the updated state. -/
def recomputeAllGo (roll bank : ℚ) (i : Nat) : List Trade → Except String (List Trade)
  | [] => Except.ok []
  | t :: rest =>
    match applyTradeMath roll bank t.stake t.multiplier t.outcome with
    | Except.error reason =>
        Except.error ("Trade #" ++ toString (i + 1) ++ ": " ++ reason)
    | Except.ok res =>
        match recomputeAllGo res.newRoll res.newBank (i + 1) rest with
        | Except.error e => Except.error e
        | Except.ok updatedRest =>
            Except.ok
              ({ t with
                  trade_number := i + 1
                  profit_loss := res.profitLoss
                  amount_banked := res.amountBanked
                  roll_pot_after := res.newRoll
                  bank_total_after := res.newBank
                  total_wealth_after := res.totalWealth } :: updatedRest)

/-- `recomputeAll` of `src/App.tsx`: replay the whole ascending history
from the fixed starting state. -/
def recomputeAll (tradesAsc : List Trade) : Except String (List Trade) :=
  recomputeAllGo STARTING_ROLL_POT STARTING_BANK_TOTAL 0 tradesAsc

/-- Replay only the running balances over a list of trades; used to state
where the first rejection of a recompute happens. -/
def replayState (roll bank : ℚ) : List Trade → Except String (ℚ × ℚ)
  | [] => Except.ok (roll, bank)
  | t :: rest =>
    match applyTradeMath roll bank t.stake t.multiplier t.outcome with
    | Except.error reason => Except.error reason
    | Except.ok res => replayState res.newRoll res.newBank rest

/-- A concrete input row (derived fields not yet filled in), used to
instantiate the general theorems. -/
def sampleTrade : Trade :=
  { id := 1
    created_at := "2025-01-01T00:00:00Z"
    trade_date := "2025-01-01"
    description := "sample"
    multiplier := 2
    stake := 100
    outcome := Outcome.win
    profit_loss := 0
    amount_banked := 0
    roll_pot_after := 0
    bank_total_after := 0
    total_wealth_after := 0
    trade_number := 0 }

/-- The row `recomputeAll [sampleTrade]` produces. -/
def sampleTradeOut : Trade :=
  { sampleTrade with
      trade_number := 1
      profit_loss := 100
      amount_banked := 60
      roll_pot_after := 140
      bank_total_after := 2960
      total_wealth_after := 3100 }

/-- Success shape of a seeding win: the stake leaves the Bank, 30% of the
total return goes to Bank, 70% to Roll Pot. -/
theorem applyTradeMath_win_seeding (prevRoll prevBank stake multiplier : ℚ)
    (hseed : prevRoll ≤ 0) (hs : 0 < stake) (hm : 1 < multiplier)
    (hcap : stake ≤ prevBank) :
    applyTradeMath prevRoll prevBank stake multiplier Outcome.win =
      Except.ok
        { newRoll := prevRoll + stake * multiplier * (7 / 10)
          newBank := prevBank - stake + stake * multiplier * (3 / 10)
          totalWealth :=
            prevRoll + stake * multiplier * (7 / 10) +
              (prevBank - stake + stake * multiplier * (3 / 10))
          profitLoss := stake * multiplier - stake
          amountBanked := stake * multiplier * (3 / 10) } := by
  unfold applyTradeMath
  rw [if_neg (not_le.mpr hs), if_neg (not_le.mpr hm),
      if_neg (fun hc => absurd hcap (not_le.mpr hc.2)),
      if_neg (fun hc => hc.1 hseed)]
  simp only [if_pos hseed]

/-- Success shape of a non-seeding win: the stake leaves the Roll Pot, 30%
of the total return goes to Bank, 70% to Roll Pot. -/
theorem applyTradeMath_win_nonseeding (prevRoll prevBank stake multiplier : ℚ)
    (hseed : ¬ prevRoll ≤ 0) (hs : 0 < stake) (hm : 1 < multiplier)
    (hcap : stake ≤ prevRoll) :
    applyTradeMath prevRoll prevBank stake multiplier Outcome.win =
      Except.ok
        { newRoll := prevRoll - stake + stake * multiplier * (7 / 10)
          newBank := prevBank + stake * multiplier * (3 / 10)
          totalWealth :=
            prevRoll - stake + stake * multiplier * (7 / 10) +
              (prevBank + stake * multiplier * (3 / 10))
          profitLoss := stake * multiplier - stake
          amountBanked := stake * multiplier * (3 / 10) } := by
  unfold applyTradeMath
  rw [if_neg (not_le.mpr hs), if_neg (not_le.mpr hm),
      if_neg (fun hc => hseed hc.1),
      if_neg (fun hc => absurd hcap (not_le.mpr hc.2))]
  simp only [if_neg hseed]

/-- Success shape of a seeding loss: the stake is lost from the Bank. -/
theorem applyTradeMath_loss_seeding (prevRoll prevBank stake multiplier : ℚ)
    (hseed : prevRoll ≤ 0) (hs : 0 < stake) (hm : 1 < multiplier)
    (hcap : stake ≤ prevBank) :
    applyTradeMath prevRoll prevBank stake multiplier Outcome.loss =
      Except.ok
        { newRoll := prevRoll
          newBank := prevBank - stake
          totalWealth := prevRoll + (prevBank - stake)
          profitLoss := -stake
          amountBanked := 0 } := by
  unfold applyTradeMath
  rw [if_neg (not_le.mpr hs), if_neg (not_le.mpr hm),
      if_neg (fun hc => absurd hcap (not_le.mpr hc.2)),
      if_neg (fun hc => hc.1 hseed)]
  simp only [if_pos hseed]

/-- Success shape of a non-seeding loss: the stake is lost from the Roll
Pot, the Bank is unchanged. -/
theorem applyTradeMath_loss_nonseeding (prevRoll prevBank stake multiplier : ℚ)
    (hseed : ¬ prevRoll ≤ 0) (hs : 0 < stake) (hm : 1 < multiplier)
    (hcap : stake ≤ prevRoll) :
    applyTradeMath prevRoll prevBank stake multiplier Outcome.loss =
      Except.ok
        { newRoll := prevRoll - stake
          newBank := prevBank
          totalWealth := prevRoll - stake + prevBank
          profitLoss := -stake
          amountBanked := 0 } := by
  unfold applyTradeMath
  rw [if_neg (not_le.mpr hs), if_neg (not_le.mpr hm),
      if_neg (fun hc => hseed hc.1),
      if_neg (fun hc => absurd hcap (not_le.mpr hc.2))]
  simp only [if_neg hseed]

/-- Inversion: a successful transition implies all three preconditions
held (positive stake, multiplier above 1, stake within the capital
source's balance). -/
theorem applyTradeMath_ok_inv (prevRoll prevBank stake multiplier : ℚ)
    (outcome : Outcome) (res : TradeResult)
    (h : applyTradeMath prevRoll prevBank stake multiplier outcome = Except.ok res) :
    0 < stake ∧ 1 < multiplier ∧
      ((prevRoll ≤ 0 ∧ stake ≤ prevBank) ∨ (¬ prevRoll ≤ 0 ∧ stake ≤ prevRoll)) := by
  unfold applyTradeMath at h
  split_ifs at h with h1 h2 h3 h4 h5 <;>
    (push_neg at h1 h2
     refine ⟨h1, h2, ?_⟩)
  · exact Or.inl ⟨h5, by by_contra hc; exact h3 ⟨h5, lt_of_not_le hc⟩⟩
  · exact Or.inr ⟨h5, by by_contra hc; exact h4 ⟨h5, lt_of_not_le hc⟩⟩

/-- C9: for every accepted transition, regardless of seeding status and
outcome, newRoll + newBank equals prevRoll + prevBank + profitLoss; a
loss decreases total wealth by exactly the stake and a win increases it
by exactly stake * (multiplier - 1). -/
theorem applyTradeMath_wealth_conservation (prevRoll prevBank stake multiplier : ℚ)
    (outcome : Outcome) (res : TradeResult)
    (h : applyTradeMath prevRoll prevBank stake multiplier outcome = Except.ok res) :
    res.newRoll + res.newBank = prevRoll + prevBank + res.profitLoss ∧
      (outcome = Outcome.loss → res.profitLoss = -stake) ∧
      (outcome = Outcome.win → res.profitLoss = stake * (multiplier - 1)) := by
  obtain ⟨hs, hm, hcase⟩ := applyTradeMath_ok_inv _ _ _ _ _ _ h
  cases outcome with
  | win =>
    rcases hcase with ⟨hseed, hcap⟩ | ⟨hseed, hcap⟩
    · rw [applyTradeMath_win_seeding prevRoll prevBank stake multiplier hseed hs hm hcap] at h
      simp only [Except.ok.injEq] at h
      subst h
      refine ⟨?_, fun hc => Outcome.noConfusion hc, fun _ => ?_⟩ <;> simp <;> ring
    · rw [applyTradeMath_win_nonseeding prevRoll prevBank stake multiplier hseed hs hm hcap] at h
      simp only [Except.ok.injEq] at h
      subst h
      refine ⟨?_, fun hc => Outcome.noConfusion hc, fun _ => ?_⟩ <;> simp <;> ring
  | loss =>
    rcases hcase with ⟨hseed, hcap⟩ | ⟨hseed, hcap⟩
    · rw [applyTradeMath_loss_seeding prevRoll prevBank stake multiplier hseed hs hm hcap] at h
      simp only [Except.ok.injEq] at h
      subst h
      refine ⟨by simp; ring, fun _ => by simp, fun hc => Outcome.noConfusion hc⟩
    · rw [applyTradeMath_loss_nonseeding prevRoll prevBank stake multiplier hseed hs hm hcap] at h
      simp only [Except.ok.injEq] at h
      subst h
      refine ⟨by simp; ring, fun _ => by simp, fun hc => Outcome.noConfusion hc⟩

/-- C8: across non-seeding trades (prevRoll > 0) the Bank balance never
decreases, for both win and loss outcomes. -/
theorem applyTradeMath_bank_monotone (prevRoll prevBank stake multiplier : ℚ)
    (outcome : Outcome) (res : TradeResult) (hroll : 0 < prevRoll)
    (h : applyTradeMath prevRoll prevBank stake multiplier outcome = Except.ok res) :
    prevBank ≤ res.newBank := by
  obtain ⟨hs, hm, hcase⟩ := applyTradeMath_ok_inv _ _ _ _ _ _ h
  rcases hcase with ⟨hseed, _⟩ | ⟨hseed, hcap⟩
  · exact absurd hroll (not_lt.mpr hseed)
  cases outcome with
  | win =>
    rw [applyTradeMath_win_nonseeding prevRoll prevBank stake multiplier hseed hs hm hcap] at h
    simp only [Except.ok.injEq] at h
    subst h
    simp only
    nlinarith
  | loss =>
    rw [applyTradeMath_loss_nonseeding prevRoll prevBank stake multiplier hseed hs hm hcap] at h
    simp only [Except.ok.injEq] at h
    subst h
    simp only
    exact le_refl prevBank

/-- C2: an accepted winning trade returns totalReturn = stake * multiplier
with amountBanked = 0.3 * totalReturn, and the balances move as: seeding
win (prevRoll ≤ 0): newBank = prevBank - stake + 0.3 * totalReturn and
newRoll = prevRoll + 0.7 * totalReturn; non-seeding win:
newBank = prevBank + 0.3 * totalReturn and
newRoll = prevRoll - stake + 0.7 * totalReturn. -/
theorem applyTradeMath_win_allocations (prevRoll prevBank stake multiplier : ℚ)
    (hs : 0 < stake) (hm : 1 < multiplier)
    (hcap : stake ≤ if prevRoll ≤ 0 then prevBank else prevRoll) :
    ∃ res, applyTradeMath prevRoll prevBank stake multiplier Outcome.win = Except.ok res ∧
      res.amountBanked = (3 / 10) * (stake * multiplier) ∧
      (prevRoll ≤ 0 →
        res.newBank = prevBank - stake + (3 / 10) * (stake * multiplier) ∧
        res.newRoll = prevRoll + (7 / 10) * (stake * multiplier)) ∧
      (¬ prevRoll ≤ 0 →
        res.newBank = prevBank + (3 / 10) * (stake * multiplier) ∧
        res.newRoll = prevRoll - stake + (7 / 10) * (stake * multiplier)) := by
  by_cases hseed : prevRoll ≤ 0
  · rw [if_pos hseed] at hcap
    refine ⟨_, applyTradeMath_win_seeding prevRoll prevBank stake multiplier hseed hs hm hcap,
      ?_, fun _ => ⟨?_, ?_⟩, fun hc => absurd hseed hc⟩ <;> (simp only; ring)
  · rw [if_neg hseed] at hcap
    refine ⟨_, applyTradeMath_win_nonseeding prevRoll prevBank stake multiplier hseed hs hm hcap,
      ?_, fun hc => absurd hc hseed, fun _ => ⟨?_, ?_⟩⟩ <;> (simp only; ring)

/-- C6: the preconditions are checked in a fixed order with the first
failure winning: a non-positive stake is always rejected for the stake
reason; the multiplier reason can only fire when the stake is positive;
and when both earlier checks pass the outcome is decided by the
capital-source balance check alone. -/
theorem applyTradeMath_check_order (prevRoll prevBank stake multiplier : ℚ)
    (outcome : Outcome) :
    (stake ≤ 0 →
      applyTradeMath prevRoll prevBank stake multiplier outcome =
        Except.error "Stake must be > 0") ∧
    (0 < stake → multiplier ≤ 1 →
      applyTradeMath prevRoll prevBank stake multiplier outcome =
        Except.error "Multiplier must be > 1") ∧
    (0 < stake → 1 < multiplier →
      ((if prevRoll ≤ 0 then prevBank else prevRoll) < stake →
        applyTradeMath prevRoll prevBank stake multiplier outcome =
          Except.error
            (if prevRoll ≤ 0 then "Stake cannot exceed Bank balance"
             else "Stake cannot exceed Roll Pot balance")) ∧
      (stake ≤ (if prevRoll ≤ 0 then prevBank else prevRoll) →
        ∃ res, applyTradeMath prevRoll prevBank stake multiplier outcome =
          Except.ok res)) := by
  refine ⟨fun h1 => ?_, fun h1 h2 => ?_, fun h1 h2 => ⟨fun h3 => ?_, fun h3 => ?_⟩⟩
  · unfold applyTradeMath
    rw [if_pos h1]
  · unfold applyTradeMath
    rw [if_neg (not_le.mpr h1), if_pos h2]
  · by_cases hseed : prevRoll ≤ 0
    · rw [if_pos hseed] at h3
      unfold applyTradeMath
      rw [if_neg (not_le.mpr h1), if_neg (not_le.mpr h2), if_pos ⟨hseed, h3⟩,
        if_pos hseed]
    · rw [if_neg hseed] at h3
      unfold applyTradeMath
      rw [if_neg (not_le.mpr h1), if_neg (not_le.mpr h2),
        if_neg (fun hc => hseed hc.1), if_pos ⟨hseed, h3⟩, if_neg hseed]
  · by_cases hseed : prevRoll ≤ 0
    · rw [if_pos hseed] at h3
      cases outcome with
      | win =>
        exact ⟨_, applyTradeMath_win_seeding prevRoll prevBank stake multiplier hseed h1 h2 h3⟩
      | loss =>
        exact ⟨_, applyTradeMath_loss_seeding prevRoll prevBank stake multiplier hseed h1 h2 h3⟩
    · rw [if_neg hseed] at h3
      cases outcome with
      | win =>
        exact ⟨_, applyTradeMath_win_nonseeding prevRoll prevBank stake multiplier hseed h1 h2 h3⟩
      | loss =>
        exact ⟨_, applyTradeMath_loss_nonseeding prevRoll prevBank stake multiplier hseed h1 h2 h3⟩

/-- C7 counterexample: with Roll Pot = 48 (non-seeding) and stake = 100 but
multiplier = 1, the transition rejects for the multiplier reason, not with
the over-stake message naming the Roll Pot. -/
theorem applyTradeMath_overstake_claim_counterexample :
    (0 : ℚ) < 48 ∧ (48 : ℚ) < 100 ∧
    applyTradeMath 48 1000000 100 1 Outcome.win =
      Except.error "Multiplier must be > 1" ∧
    "Multiplier must be > 1" ≠ "Stake cannot exceed Roll Pot balance" := by
  refine ⟨by norm_num, by norm_num, by norm_num [applyTradeMath], by decide⟩

/-- C7 amended: for every non-seeding trade (prevRoll > 0) with
multiplier > 1 whose stake exceeds prevRoll, the transition rejects with
the over-stake message naming the Roll Pot, regardless of the Bank
balance and of the outcome. -/
theorem applyTradeMath_overstake_roll (prevRoll prevBank stake multiplier : ℚ)
    (outcome : Outcome) (hroll : 0 < prevRoll) (hm : 1 < multiplier)
    (hover : prevRoll < stake) :
    applyTradeMath prevRoll prevBank stake multiplier outcome =
      Except.error "Stake cannot exceed Roll Pot balance" := by
  have hs : 0 < stake := lt_trans hroll hover
  have hseed : ¬ prevRoll ≤ 0 := not_le.mpr hroll
  unfold applyTradeMath
  rw [if_neg (not_le.mpr hs), if_neg (not_le.mpr hm),
      if_neg (fun hc => hseed hc.1), if_pos ⟨hseed, hover⟩]

/-- C7 amended, witness: Roll Pot = 48, Bank = 1000000, stake = 100,
multiplier = 2 rejects naming the Roll Pot. -/
theorem applyTradeMath_overstake_roll_witness :
    applyTradeMath 48 1000000 100 2 Outcome.win =
      Except.error "Stake cannot exceed Roll Pot balance" :=
  applyTradeMath_overstake_roll 48 1000000 100 2 Outcome.win
    (by norm_num) (by norm_num) (by norm_num)

/-- C1 counterexample: the seeding trade stake=100, multiplier=2, win from
Roll Pot = 0, Bank = 3000 yields Roll Pot = 140, Bank = 2960, Total
Wealth = 3100 (the code splits the whole 200 return 70/30), not the
claimed 70 / 2930 / 3000. -/
theorem applyTradeMath_seeding_example_counterexample :
    applyTradeMath 0 3000 100 2 Outcome.win =
      Except.ok { newRoll := 140, newBank := 2960, totalWealth := 3100,
                  profitLoss := 100, amountBanked := 60 } ∧
    (((140 : ℚ), (2960 : ℚ), (3100 : ℚ)) ≠ ((70 : ℚ), (2930 : ℚ), (3000 : ℚ))) := by
  exact ⟨by norm_num [applyTradeMath], by norm_num⟩

/-- C1 amended: for the transition applied to Roll Pot = 0, Bank = 3000
with stake = 100, multiplier = 2, outcome = win (a seeding trade), the
result is Bank = 2960, Roll Pot = 140, Total Wealth = 3100. -/
theorem applyTradeMath_seeding_example :
    applyTradeMath 0 3000 100 2 Outcome.win =
      Except.ok { newRoll := 140, newBank := 2960, totalWealth := 3100,
                  profitLoss := 100, amountBanked := 60 } := by
  norm_num [applyTradeMath]

/-- C10: Recompute-All on the empty history succeeds with the empty list. -/
theorem recomputeAll_empty : recomputeAll [] = Except.ok [] := rfl

/-- A successful transition's reported total wealth is exactly
newRoll + newBank. -/
theorem applyTradeMath_totalWealth (prevRoll prevBank stake multiplier : ℚ)
    (outcome : Outcome) (res : TradeResult)
    (h : applyTradeMath prevRoll prevBank stake multiplier outcome = Except.ok res) :
    res.totalWealth = res.newRoll + res.newBank := by
  obtain ⟨hs, hm, hcase⟩ := applyTradeMath_ok_inv _ _ _ _ _ _ h
  cases outcome with
  | win =>
    rcases hcase with ⟨hseed, hcap⟩ | ⟨hseed, hcap⟩
    · rw [applyTradeMath_win_seeding prevRoll prevBank stake multiplier hseed hs hm hcap] at h
      simp only [Except.ok.injEq] at h
      subst h
      rfl
    · rw [applyTradeMath_win_nonseeding prevRoll prevBank stake multiplier hseed hs hm hcap] at h
      simp only [Except.ok.injEq] at h
      subst h
      rfl
  | loss =>
    rcases hcase with ⟨hseed, hcap⟩ | ⟨hseed, hcap⟩
    · rw [applyTradeMath_loss_seeding prevRoll prevBank stake multiplier hseed hs hm hcap] at h
      simp only [Except.ok.injEq] at h
      subst h
      rfl
    · rw [applyTradeMath_loss_nonseeding prevRoll prevBank stake multiplier hseed hs hm hcap] at h
      simp only [Except.ok.injEq] at h
      subst h
      rfl

/-- Every record produced by the recompute loop satisfies the wealth
invariant, for any starting balances and index. -/
theorem recomputeAllGo_wealth_invariant (ts : List Trade) :
    ∀ (roll bank : ℚ) (i : Nat) (us : List Trade),
      recomputeAllGo roll bank i ts = Except.ok us →
      ∀ u ∈ us, u.total_wealth_after = u.roll_pot_after + u.bank_total_after := by
  induction ts with
  | nil =>
    intro roll bank i us h u hu
    simp only [recomputeAllGo, Except.ok.injEq] at h
    subst h
    cases hu
  | cons t rest ih =>
    intro roll bank i us h u hu
    simp only [recomputeAllGo] at h
    split at h
    · cases h
    · rename_i res happ
      split at h
      · cases h
      · rename_i us' hrec
        simp only [Except.ok.injEq] at h
        subst h
        rcases List.mem_cons.mp hu with rfl | hu'
        · exact applyTradeMath_totalWealth _ _ _ _ _ _ happ
        · exact ih res.newRoll res.newBank (i + 1) us' hrec u hu'

/-- C5: every record of a successful Recompute-All output satisfies
total_wealth_after = roll_pot_after + bank_total_after exactly. -/
theorem recomputeAll_wealth_invariant (ts us : List Trade)
    (h : recomputeAll ts = Except.ok us) (u : Trade) (hu : u ∈ us) :
    u.total_wealth_after = u.roll_pot_after + u.bank_total_after :=
  recomputeAllGo_wealth_invariant ts STARTING_ROLL_POT STARTING_BANK_TOTAL 0 us h u hu

/-- The recompute loop is idempotent from any starting state: replaying
its own output with the same starting balances reproduces it exactly,
because the loop reads only the input fields (stake, multiplier,
outcome), which it leaves untouched. -/
theorem recomputeAllGo_idempotent (ts : List Trade) :
    ∀ (roll bank : ℚ) (i : Nat) (us : List Trade),
      recomputeAllGo roll bank i ts = Except.ok us →
      recomputeAllGo roll bank i us = Except.ok us := by
  induction ts with
  | nil =>
    intro roll bank i us h
    simp only [recomputeAllGo, Except.ok.injEq] at h
    subst h
    rfl
  | cons t rest ih =>
    intro roll bank i us h
    simp only [recomputeAllGo] at h
    split at h
    · cases h
    · rename_i res happ
      split at h
      · cases h
      · rename_i us' hrec
        simp only [Except.ok.injEq] at h
        subst h
        have hrec2 := ih res.newRoll res.newBank (i + 1) us' hrec
        simp only [recomputeAllGo, happ, hrec2]

/-- C4: if Recompute-All succeeds on a history, running it again on its
own output succeeds and returns exactly the same records (in particular
all derived fields are identical). -/
theorem recomputeAll_idempotent (ts us : List Trade)
    (h : recomputeAll ts = Except.ok us) :
    recomputeAll us = Except.ok us :=
  recomputeAllGo_idempotent ts STARTING_ROLL_POT STARTING_BANK_TOTAL 0 us h

/-- The recompute loop, from any state and index, either succeeds on the
whole list or fails at the first rejected record, reporting its 1-based
position (offset by the running index) and the rejection reason. -/
theorem recomputeAllGo_all_or_nothing (ts : List Trade) :
    ∀ (roll bank : ℚ) (i : Nat),
      (∃ us, recomputeAllGo roll bank i ts = Except.ok us ∧
        us.length = ts.length) ∨
      (∃ j reason roll2 bank2 t rest,
        ts.drop j = t :: rest ∧
        replayState roll bank (ts.take j) = Except.ok (roll2, bank2) ∧
        applyTradeMath roll2 bank2 t.stake t.multiplier t.outcome =
          Except.error reason ∧
        recomputeAllGo roll bank i ts =
          Except.error ("Trade #" ++ toString (i + j + 1) ++ ": " ++ reason)) := by
  induction ts with
  | nil =>
    intro roll bank i
    exact Or.inl ⟨[], rfl, rfl⟩
  | cons t rest ih =>
    intro roll bank i
    cases happ : applyTradeMath roll bank t.stake t.multiplier t.outcome with
    | error r =>
      refine Or.inr ⟨0, r, roll, bank, t, rest, rfl, rfl, happ, ?_⟩
      simp [recomputeAllGo, happ]
    | ok res =>
      rcases ih res.newRoll res.newBank (i + 1) with ⟨us, hok, hlen⟩ |
        ⟨j, reason, roll2, bank2, t', rest', hdrop, hreplay, happ2, herr⟩
      · refine Or.inl
          ⟨{ t with
              trade_number := i + 1
              profit_loss := res.profitLoss
              amount_banked := res.amountBanked
              roll_pot_after := res.newRoll
              bank_total_after := res.newBank
              total_wealth_after := res.totalWealth } :: us, ?_, ?_⟩
        · simp only [recomputeAllGo, happ, hok]
        · simp [hlen]
      · refine Or.inr ⟨j + 1, reason, roll2, bank2, t', rest', ?_, ?_, happ2, ?_⟩
        · simpa using hdrop
        · simp only [List.take_succ_cons, replayState, happ]
          exact hreplay
        · have hi : i + 1 + j + 1 = i + (j + 1) + 1 := by omega
          rw [hi] at herr
          simp only [recomputeAllGo, happ, herr]

/-- C3: Recompute-All is all-or-nothing: either every record recomputes
and a full list (same length as the input) is returned, or the replay
succeeds up to some position j, record j + 1 (1-based) is rejected by
the transition function, and the whole recompute aborts with that
position and reason, returning no list of records. -/
theorem recomputeAll_all_or_nothing (ts : List Trade) :
    (∃ us, recomputeAll ts = Except.ok us ∧ us.length = ts.length) ∨
    (∃ j reason roll bank t rest,
      ts.drop j = t :: rest ∧
      replayState STARTING_ROLL_POT STARTING_BANK_TOTAL (ts.take j) =
        Except.ok (roll, bank) ∧
      applyTradeMath roll bank t.stake t.multiplier t.outcome =
        Except.error reason ∧
      recomputeAll ts =
        Except.error ("Trade #" ++ toString (j + 1) ++ ": " ++ reason)) := by
  rcases recomputeAllGo_all_or_nothing ts STARTING_ROLL_POT STARTING_BANK_TOTAL 0 with
    ⟨us, hok, hlen⟩ | ⟨j, reason, roll2, bank2, t, rest, hdrop, hreplay, happ, herr⟩
  · exact Or.inl ⟨us, hok, hlen⟩
  · refine Or.inr ⟨j, reason, roll2, bank2, t, rest, hdrop, hreplay, happ, ?_⟩
    simpa using herr

/-- C2 witness at the seeding trade stake = 100, multiplier = 2 from the
starting state. -/
theorem applyTradeMath_win_allocations_witness :
    ∃ res, applyTradeMath 0 3000 100 2 Outcome.win = Except.ok res ∧
      res.amountBanked = (3 / 10) * (100 * 2) ∧
      ((0 : ℚ) ≤ 0 →
        res.newBank = 3000 - 100 + (3 / 10) * (100 * 2) ∧
        res.newRoll = 0 + (7 / 10) * (100 * 2)) ∧
      (¬ (0 : ℚ) ≤ 0 →
        res.newBank = 3000 + (3 / 10) * (100 * 2) ∧
        res.newRoll = 0 - 100 + (7 / 10) * (100 * 2)) :=
  applyTradeMath_win_allocations 0 3000 100 2 (by norm_num) (by norm_num)
    (by norm_num)

/-- C6 witness: stake = -5 with multiplier = 1/2 is rejected for the stake
reason. -/
theorem applyTradeMath_check_order_witness :
    applyTradeMath 0 3000 (-5) (1 / 2) Outcome.win =
      Except.error "Stake must be > 0" :=
  (applyTradeMath_check_order 0 3000 (-5) (1 / 2) Outcome.win).1 (by norm_num)

/-- C8 witness: the non-seeding win Roll Pot = 70, Bank = 2930, stake = 70,
multiplier = 3 does not decrease the Bank. -/
theorem applyTradeMath_bank_monotone_witness :
    (2930 : ℚ) ≤ (TradeResult.mk 147 2993 3140 140 63).newBank :=
  applyTradeMath_bank_monotone 70 2930 70 3 Outcome.win
    (TradeResult.mk 147 2993 3140 140 63) (by norm_num)
    (by norm_num [applyTradeMath])

/-- C9 witness at the seeding win stake = 100, multiplier = 2 from the
starting state. -/
theorem applyTradeMath_wealth_conservation_witness :
    (TradeResult.mk 140 2960 3100 100 60).newRoll +
        (TradeResult.mk 140 2960 3100 100 60).newBank =
      0 + 3000 + (TradeResult.mk 140 2960 3100 100 60).profitLoss ∧
    (Outcome.win = Outcome.loss →
      (TradeResult.mk 140 2960 3100 100 60).profitLoss = -100) ∧
    (Outcome.win = Outcome.win →
      (TradeResult.mk 140 2960 3100 100 60).profitLoss = 100 * (2 - 1)) :=
  applyTradeMath_wealth_conservation 0 3000 100 2 Outcome.win
    (TradeResult.mk 140 2960 3100 100 60) (by norm_num [applyTradeMath])

/-- C4 witness: the one-trade ledger recomputes to `sampleTradeOut`, and
recomputing that output reproduces it. -/
theorem recomputeAll_idempotent_witness :
    recomputeAll [sampleTradeOut] = Except.ok [sampleTradeOut] :=
  recomputeAll_idempotent [sampleTrade] [sampleTradeOut]
    (by norm_num [recomputeAll, recomputeAllGo, applyTradeMath,
      STARTING_ROLL_POT, STARTING_BANK_TOTAL, sampleTrade, sampleTradeOut])

/-- C5 witness: the record produced for the one-trade ledger satisfies the
wealth invariant. -/
theorem recomputeAll_wealth_invariant_witness :
    sampleTradeOut.total_wealth_after =
      sampleTradeOut.roll_pot_after + sampleTradeOut.bank_total_after :=
  recomputeAll_wealth_invariant [sampleTrade] [sampleTradeOut]
    (by norm_num [recomputeAll, recomputeAllGo, applyTradeMath,
      STARTING_ROLL_POT, STARTING_BANK_TOTAL, sampleTrade, sampleTradeOut])
    sampleTradeOut (by simp)
